import Mathlib

/-!
Verification of the vectorstore lifecycle manager and RAG service
(`dataLoading.py`, `rag.py`, `main.py`) via a shallow embedding.

Modelling conventions:
* Machine bytes are `Nat` values (< 256 for genuine byte data).
* `hashlib.md5` is an external collaborator; the model of `get_folder_hash`
  returns the exact byte stream the code feeds to the md5 accumulator
  (filename bytes then content bytes, files sorted by name).  Distinct
  streams are assumed to give distinct digests (collision-free idealization),
  while equal streams give equal digests unconditionally.
* Python's text decoding of a file opened in `'r'` mode is modelled by a
  genuine UTF-8 decoder (the standard default encoding); `json.load` is
  modelled by a small genuine JSON parser covering objects, arrays, strings
  with the basic escapes, integers, booleans and null.
* External collaborators (PDF text extraction, the text splitter, the
  embedding model, FAISS persistence/loading, the LLM endpoint, retrieval,
  chain invocation) are oracle fields: each either succeeds with a value or
  raises, exactly as the call sites can observe.
-/

/-! ## Bytes and UTF-8 -/

abbrev Bytes := List Nat

/-- UTF-8 encoding of a single character (the byte sequence Python's
`str.encode()` produces for it). -/
def utf8EncodeChar (c : Char) : List Nat :=
  let n := c.toNat
  if n ≤ 0x7F then [n]
  else if n ≤ 0x7FF then [0xC0 + n / 64, 0x80 + n % 64]
  else if n ≤ 0xFFFF then [0xE0 + n / 4096, 0x80 + (n / 64) % 64, 0x80 + n % 64]
  else [0xF0 + n / 262144, 0x80 + (n / 4096) % 64, 0x80 + (n / 64) % 64, 0x80 + n % 64]

/-- UTF-8 encoding of a character sequence. -/
def bytesOfChars : List Char → List Nat
  | [] => []
  | c :: cs => utf8EncodeChar c ++ bytesOfChars cs

/-- UTF-8 encoding of a string, modelling Python's `s.encode()`. -/
def strBytes (s : String) : List Nat := bytesOfChars s.toList

/-- Is `b` a UTF-8 continuation byte (`0x80..0xBF`)? -/
def isCont (b : Nat) : Bool := 0x80 ≤ b && b ≤ 0xBF

/-- Genuine UTF-8 decoder: the byte sequences Python's `utf-8` codec accepts,
rejecting stray continuation bytes, overlong forms, surrogates and
out-of-range lead bytes.  `none` models `UnicodeDecodeError`. -/
def utf8Decode : List Nat → Option (List Char)
  | [] => some []
  | b :: bs =>
    if b ≤ 0x7F then (utf8Decode bs).map (fun cs => Char.ofNat b :: cs)
    else if b ≤ 0xC1 then none
    else if b ≤ 0xDF then
      match bs with
      | b1 :: bs2 =>
        if isCont b1 then
          (utf8Decode bs2).map (fun cs => Char.ofNat ((b - 0xC0) * 64 + (b1 - 0x80)) :: cs)
        else none
      | [] => none
    else if b ≤ 0xEF then
      match bs with
      | b1 :: b2 :: bs2 =>
        if isCont b1 && isCont b2 then
          let n := (b - 0xE0) * 4096 + (b1 - 0x80) * 64 + (b2 - 0x80)
          if n < 0x800 || (0xD800 ≤ n && n ≤ 0xDFFF) then none
          else (utf8Decode bs2).map (fun cs => Char.ofNat n :: cs)
        else none
      | _ => none
    else if b ≤ 0xF4 then
      match bs with
      | b1 :: b2 :: b3 :: bs2 =>
        if isCont b1 && isCont b2 && isCont b3 then
          let n := (b - 0xF0) * 262144 + (b1 - 0x80) * 4096 + (b2 - 0x80) * 64 + (b3 - 0x80)
          if n < 0x10000 || 0x10FFFF < n then none
          else (utf8Decode bs2).map (fun cs => Char.ofNat n :: cs)
        else none
      | _ => none
    else none

/-- Lower-case hex digit for a nibble, as `md5.hexdigest()` uses. -/
def hexDigit (n : Nat) : Char :=
  if n < 10 then Char.ofNat (48 + n) else Char.ofNat (87 + n)

/-- Hex rendering of a byte list (two lower-case hex digits per byte). -/
def hexEncode : List Nat → List Char
  | [] => []
  | b :: bs => hexDigit (b / 16 % 16) :: hexDigit (b % 16) :: hexEncode bs

/-! ## JSON values and a model of `json.load` -/

/-- JSON values as Python's `json` module produces them (numbers restricted
to integers; the metadata record only ever holds strings and integers). -/
inductive Json where
  | null
  | bool (b : Bool)
  | num (n : Int)
  | str (s : List Char)
  | arr (xs : List Json)
  | obj (kvs : List (List Char × Json))

/-- Skip JSON whitespace. -/
def skipWs : List Char → List Char
  | [] => []
  | c :: cs => if c = ' ' || c = '\n' || c = '\t' || c = '\r' then skipWs cs else c :: cs

/-- Translate a JSON string escape character. -/
def escChar (c : Char) : Option Char :=
  if c = '"' then some '"'
  else if c = '\\' then some '\\'
  else if c = '/' then some '/'
  else if c = 'n' then some '\n'
  else if c = 't' then some '\t'
  else if c = 'r' then some '\r'
  else if c = 'b' then some (Char.ofNat 8)
  else if c = 'f' then some (Char.ofNat 12)
  else none

/-- Parse the remainder of a JSON string (the opening quote already
consumed), returning the string's characters and the rest of the input. -/
def parseStringRest : List Char → Option (List Char × List Char)
  | [] => none
  | '"' :: rest => some ([], rest)
  | '\\' :: rest =>
    match rest with
    | [] => none
    | e :: rest2 =>
      match escChar e, parseStringRest rest2 with
      | some ec, some (s, r) => some (ec :: s, r)
      | _, _ => none
  | c :: rest =>
    match parseStringRest rest with
    | some (s, r) => some (c :: s, r)
    | none => none

/-- Consume decimal digits, accumulating their value. -/
def parseDigitsAux : List Char → Nat → Nat × List Char
  | [], acc => (acc, [])
  | c :: cs, acc =>
    if c.isDigit then parseDigitsAux cs (acc * 10 + (c.toNat - 48)) else (acc, c :: cs)

/-- Parse a nonempty digit sequence as a natural number. -/
def parseNat : List Char → Option (Nat × List Char)
  | [] => none
  | c :: cs => if c.isDigit then some (parseDigitsAux cs (c.toNat - 48)) else none

/-- Parsing mode: a single value, the members of an object, or the items of
an array (with the members/items parsed so far). -/
inductive PMode where
  | value
  | members (acc : List (List Char × Json))
  | items (acc : List Json)

/-- Fuel-indexed JSON parser core. -/
def parseJ : Nat → PMode → List Char → Option (Json × List Char)
  | 0, _, _ => none
  | f + 1, .value, input =>
    match skipWs input with
    | [] => none
    | '"' :: cs => (parseStringRest cs).map (fun p => (.str p.1, p.2))
    | '\x7b' :: cs =>
      (match skipWs cs with
       | '\x7d' :: r => some (.obj [], r)
       | _ => parseJ f (.members []) cs)
    | '[' :: cs =>
      (match skipWs cs with
       | ']' :: r => some (.arr [], r)
       | _ => parseJ f (.items []) cs)
    | '-' :: cs => (parseNat cs).map (fun p => (.num (-(p.1 : Int)), p.2))
    | 't' :: 'r' :: 'u' :: 'e' :: r => some (.bool true, r)
    | 'f' :: 'a' :: 'l' :: 's' :: 'e' :: r => some (.bool false, r)
    | 'n' :: 'u' :: 'l' :: 'l' :: r => some (.null, r)
    | c :: cs =>
      if c.isDigit then (parseNat (c :: cs)).map (fun p => (.num (p.1 : Int), p.2)) else none
  | f + 1, .members acc, input =>
    match skipWs input with
    | '"' :: cs =>
      (match parseStringRest cs with
       | none => none
       | some (k, r1) =>
         match skipWs r1 with
         | ':' :: r2 =>
           (match parseJ f .value r2 with
            | none => none
            | some (v, r3) =>
              match skipWs r3 with
              | ',' :: r4 => parseJ f (.members (acc ++ [(k, v)])) r4
              | '\x7d' :: r4 => some (.obj (acc ++ [(k, v)]), r4)
              | _ => none)
         | _ => none)
    | _ => none
  | f + 1, .items acc, input =>
    match parseJ f .value input with
    | none => none
    | some (v, r1) =>
      match skipWs r1 with
      | ',' :: r2 => parseJ f (.items (acc ++ [v])) r2
      | ']' :: r2 => some (.arr (acc ++ [v]), r2)
      | _ => none

/-- Model of `json.loads` on already-decoded text: a single JSON value
followed only by whitespace, else a parse failure (`JSONDecodeError`). -/
def jsonParse (input : List Char) : Option Json :=
  match parseJ (input.length + 1) .value input with
  | some (v, rest) => if (skipWs rest).isEmpty then some v else none
  | none => none

/-! ## Python-level helpers -/

/-- Exceptions the embedded code can raise. -/
inductive PyExc where
  | unicodeDecodeError
  | jsonDecodeError
  | attributeError
  | environmentError
  | externalError
deriving DecidableEq, Repr

/-- Last-wins association lookup: how a Python `dict` built from JSON object
members behaves under `.get`, duplicate keys overriding earlier ones. -/
def lookupLast (kvs : List (List Char × Json)) (k : List Char) : Option Json :=
  match kvs with
  | [] => none
  | (k1, v) :: rest =>
    match lookupLast rest k with
    | some v2 => some v2
    | none => if k1 = k then some v else none

/-- Model of Python's `x.get(key)` where `x` came from `json.load`: a dict
answers the lookup, any non-dict raises `AttributeError`. -/
def pyGet (j : Json) (k : List Char) : Except PyExc (Option Json) :=
  match j with
  | .obj kvs => .ok (lookupLast kvs k)
  | _ => .error .attributeError

/-! ## String order (Python's code-point lexicographic comparison) -/

/-- Lexicographic less-or-equal on character lists by code point — the
comparison Python's `sorted` uses on `str`. -/
def leChars : List Char → List Char → Bool
  | [], _ => true
  | _ :: _, [] => false
  | a :: as, b :: bs =>
    if a.toNat < b.toNat then true
    else if b.toNat < a.toNat then false
    else leChars as bs

/-- String less-or-equal by code points (Python's `<=` on `str`). -/
def strLeB (a b : String) : Bool := leChars a.toList b.toList

/-! ## Files, folders and the content hash -/

/-- A file on disk: its base name and byte content. -/
structure PdfFile where
  name : String
  content : Bytes
deriving DecidableEq, Repr

/-- Does a file name match the `glob` pattern `*.pdf` (hidden files are not
matched by `*`)?  Python's `str.endswith`/leading-dot checks are code-point
suffix/prefix tests on the name. -/
def qualifiesPdf (n : String) : Bool :=
  List.isSuffixOf ".pdf".toList n.toList && !(List.isPrefixOf ".".toList n.toList)

/-- Sorting files by name, as `sorted(glob.glob(...))` orders the paths of a
single folder. -/
def sortByName (files : List PdfFile) : List PdfFile :=
  List.insertionSort (fun f g => strLeB f.name g.name = true) files

/-- Byte stream of a sorted file list: each file contributes its encoded
name followed by its full content, exactly the update sequence
`get_folder_hash` feeds to `hashlib.md5`. -/
def encStream : List PdfFile → List Nat
  | [] => []
  | f :: l => (strBytes f.name ++ f.content) ++ encStream l

/-- Model of `get_folder_hash` (dataLoading.py): enumerate the folder's
`*.pdf` files in sorted name order and accumulate name bytes then content
bytes.  The value is the md5 input stream; the real function returns
`md5(stream).hexdigest()`, so equal streams give equal fingerprints
unconditionally and distinct streams give distinct fingerprints under the
collision-free idealization of md5. -/
def get_folder_hash (files : List PdfFile) : List Nat :=
  encStream (sortByName (files.filter (fun f => qualifiesPdf f.name)))

/-! ## Disk state -/

/-- One entry of the curriculum root directory. -/
structure Directory where
  name : String
  isDir : Bool
  files : List PdfFile
deriving DecidableEq, Repr

/-- Per-subject vectorstore directory `vectorstores/{subject}_faiss`:
whether `index.faiss` / `index.pkl` exist, and the raw bytes of
`vectorstore_metadata.json` (`none` when the file is absent). -/
structure VsDir where
  hasFaiss : Bool
  hasPkl : Bool
  metadataFile : Option Bytes
deriving DecidableEq, Repr

/-- The disk: the curriculum root (`none` when the folder does not exist)
and the per-subject vectorstore directories. -/
structure DiskState where
  curriculumRoot : Option (List Directory)
  stores : List (String × VsDir)
deriving DecidableEq, Repr

/-- The vectorstore directory for a subject (missing files/dir when the
subject has no entry). -/
def getStore (st : DiskState) (s : String) : VsDir :=
  (st.stores.lookup s).getD ⟨false, false, none⟩

/-- Update (or create) a subject's vectorstore directory entry. -/
def updStores (l : List (String × VsDir)) (s : String) (f : VsDir → VsDir) :
    List (String × VsDir) :=
  match l with
  | [] => [(s, f ⟨false, false, none⟩)]
  | (k, v) :: t => if k == s then (k, f v) :: t else (k, v) :: updStores t s f

/-- Apply an update to a subject's vectorstore directory on disk. -/
def setStore (st : DiskState) (s : String) (f : VsDir → VsDir) : DiskState :=
  { st with stores := updStores st.stores s f }

/-- Look up the curriculum folder of a subject (`Path(...)/subject` with
`is_dir()` true). -/
def findDir (root : Option (List Directory)) (s : String) : Option Directory :=
  match root with
  | none => none
  | some ds => ds.find? (fun d => d.name == s && d.isDir)

/-- The files inside a subject's curriculum folder; a missing folder
contributes no files (as `glob` on a nonexistent path returns `[]`). -/
def curriculumFiles (st : DiskState) (s : String) : List PdfFile :=
  match findDir st.curriculumRoot s with
  | some d => d.files
  | none => []

/-! ## Metadata store (dataLoading.py) -/

/-- Model of `get_metadata`: a missing file yields `{}`; otherwise the bytes
are decoded as text (an undecodable file raises `UnicodeDecodeError`, which
the function does not catch) and parsed as JSON (a parse failure is the
caught `json.JSONDecodeError`, yielding `{}`). -/
def get_metadata (fileContent : Option Bytes) : Except PyExc Json :=
  match fileContent with
  | none => .ok (Json.obj [])
  | some bs =>
    match utf8Decode bs with
    | none => .error .unicodeDecodeError
    | some text =>
      match jsonParse text with
      | some v => .ok v
      | none => .ok (Json.obj [])

/-- The exact text `json.dump(metadata, f, indent=4)` writes for the
metadata record (hash string, document and chunk counts, timestamp). -/
def metadataText (h : List Char) (numDocs numChunks : Nat) (ts : String) : String :=
  "\x7b\n    \"file_hash\": \"" ++ String.mk h ++
  "\",\n    \"num_documents\": " ++ toString numDocs ++
  ",\n    \"num_chunks\": " ++ toString numChunks ++
  ",\n    \"last_build\": \"" ++ ts ++ "\"\n\x7d"

/-- Model of `save_metadata`: create the subject's vectorstore directory if
needed and overwrite its metadata file with a fresh record. -/
def save_metadata (st : DiskState) (s : String) (h : List Char)
    (numDocs numChunks : Nat) (ts : String) : DiskState :=
  setStore st s (fun vd =>
    { vd with metadataFile := some (strBytes (metadataText h numDocs numChunks ts)) })

/-- Does a stored JSON value equal the current hash string?  Python's
`metadata.get("file_hash") != current_hash` compares a decoded JSON value
with a `str`: only a string with the same characters is equal. -/
def storedEqHash (stored : Option Json) (h : List Char) : Bool :=
  match stored with
  | some (.str s) => s == h
  | _ => false

/-- Model of `should_rebuild_vectorstore`: missing index files force a
rebuild; otherwise the stored fingerprint is compared with the current
folder fingerprint (exceptions from reading the metadata propagate). -/
def should_rebuild_vectorstore (st : DiskState) (s : String) : Except PyExc Bool :=
  let vd := getStore st s
  if !(vd.hasFaiss && vd.hasPkl) then .ok true
  else
    let current := hexEncode (get_folder_hash (curriculumFiles st s))
    match get_metadata vd.metadataFile with
    | .error e => .error e
    | .ok md =>
      match pyGet md "file_hash".toList with
      | .error e => .error e
      | .ok stored => .ok (!storedEqHash stored current)

/-! ## Opaque handles for external objects -/

/-- A vectorstore handle, tagged with how it was obtained (a fresh build or
a load of the persisted index) and for which subject. -/
inductive Vs where
  | built (subject : String)
  | loaded (subject : String)
deriving DecidableEq, Repr

/-- The `HuggingFaceEmbeddings` handle. -/
inductive Emb where
  | hf
deriving DecidableEq, Repr

/-- The `ChatHuggingFace` LLM handle. -/
inductive Llm where
  | chatHF
deriving DecidableEq, Repr

/-- A retriever derived from a vectorstore (`vectorstore.as_retriever`). -/
inductive Retriever where
  | fromVs (v : Vs)
deriving DecidableEq, Repr

/-- An `LLMChain` handle. -/
inductive LlmChain where
  | chain
deriving DecidableEq, Repr

/-- The per-subject RAG components dict: both slots hold whatever Python
value was stored, so either may in principle be `None`. -/
structure Components where
  retriever : Option Retriever
  llm_chain : Option LlmChain
deriving DecidableEq, Repr

/-! ## Oracle for external collaborators -/

/-- Outcomes of every external call the embedded code makes.  A `Bool`
field true means the call returns normally, false means it raises; `Except`
fields carry the returned value. -/
structure Oracle where
  /-- `PyPDFLoader(path).load()` per subject and file name: the page texts,
  or an extraction failure. -/
  pdfPages : String → String → Except Unit (List String)
  /-- `RecursiveCharacterTextSplitter.split_documents` (external splitter,
  window 1000 / overlap 200). -/
  split : List String → List String
  /-- Does `HuggingFaceEmbeddings(...)` construct successfully? -/
  embedOk : Bool
  /-- Does `FAISS.from_documents` succeed? -/
  fromDocsOk : Bool
  /-- Does `vectorstore.save_local` succeed? -/
  saveOk : Bool
  /-- Does `FAISS.load_local` succeed? -/
  loadOk : Bool
  /-- `os.getenv("HUGGINGFACEHUB_API_TOKEN")`. -/
  hfToken : Option String
  /-- Does constructing the HuggingFace endpoint + chat model succeed? -/
  llmEndpointOk : Bool
  /-- Do `LLMChain(...)` and `as_retriever(...)` succeed? -/
  chainOk : Bool
  /-- `retriever.get_relevant_documents(query)`: page contents or a raised
  retrieval error. -/
  retrieve : String → Except Unit (List String)
  /-- `llm_chain.invoke({...})['text']` given the formatted context: the
  generated text or a raised model error. -/
  invoke : String → Except Unit String
  /-- `datetime.now().isoformat()` at build time. -/
  now : String

/-- Model of `create_embeddings`: construct the embeddings model or raise. -/
def create_embeddings (o : Oracle) : Except PyExc Emb :=
  if o.embedOk then .ok .hf else .error .externalError

/-! ## Builder and loader (dataLoading.py) -/

/-- Page documents extracted from the subject's PDFs in sorted order; a file
whose extraction raises is skipped (with a warning). -/
def loadAllPdfs (o : Oracle) (s : String) : List PdfFile → List String
  | [] => []
  | f :: rest =>
    (match o.pdfPages s f.name with
     | .ok pages => pages
     | .error _ => []) ++ loadAllPdfs o s rest

/-- Model of `build_vectorstore`: check the subject folder, extract pages
(skipping unreadable files), fail on zero documents, split into chunks,
then embed, index and persist; the metadata record is written only after
`save_local` returns, and any exception in that block aborts with
`(None, None)`. -/
def build_vectorstore (st : DiskState) (o : Oracle) (s : String) :
    (Option Vs × Option Emb) × DiskState :=
  match findDir st.curriculumRoot s with
  | none => ((none, none), st)
  | some dir =>
    let pdfs := sortByName (dir.files.filter (fun f => qualifiesPdf f.name))
    let docs := loadAllPdfs o s pdfs
    if docs.isEmpty then ((none, none), st)
    else
      let chunks := o.split docs
      match create_embeddings o with
      | .error _ => ((none, none), st)
      | .ok _ =>
        if !o.fromDocsOk then ((none, none), st)
        else if !o.saveOk then ((none, none), st)
        else
          let st1 := setStore st s (fun vd => { vd with hasFaiss := true, hasPkl := true })
          let h := hexEncode (get_folder_hash dir.files)
          let st2 := save_metadata st1 s h docs.length chunks.length o.now
          ((some (.built s), some .hf), st2)

/-- Model of `load_vectorstore`: a missing `index.faiss` forces a rebuild;
otherwise embeddings construction, `FAISS.load_local` and the metadata
display all run inside one `try`, and any exception falls back to
`build_vectorstore` instead of propagating. -/
def load_vectorstore (st : DiskState) (o : Oracle) (s : String) :
    (Option Vs × Option Emb) × DiskState :=
  let vd := getStore st s
  if !vd.hasFaiss then build_vectorstore st o s
  else
    match create_embeddings o with
    | .error _ => build_vectorstore st o s
    | .ok emb =>
      if !o.loadOk then build_vectorstore st o s
      else
        match get_metadata vd.metadataFile with
        | .error _ => build_vectorstore st o s
        | .ok _ => ((some (.loaded s), some emb), st)

/-! ## Process state -/

/-- Process-wide mutable state: the subjects discovered at import time, the
disk, `GLOBAL_VECTORSTORES`, the `LLM` singleton and `RAG_COMPONENTS`. -/
structure ProcState where
  availableSubjects : List String
  disk : DiskState
  gvs : List (String × Vs)
  llm : Option Llm
  ragComponents : List (String × Components)
deriving Repr

/-- Lift a disk-level result into the process state (build and load touch
only the disk). -/
def liftDisk (ps : ProcState) (r : (Option Vs × Option Emb) × DiskState) :
    (Option Vs × Option Emb) × ProcState :=
  (r.1, { ps with disk := r.2 })

/-- Model of `initialize_vectorstore`: a cache hit in `GLOBAL_VECTORSTORES`
(without `force_rebuild`) returns the cached store with fresh embeddings;
otherwise the staleness gate dispatches to the builder or the loader.  No
branch ever writes to `GLOBAL_VECTORSTORES`. -/
def initialize_vectorstore (ps : ProcState) (o : Oracle) (s : String) (force : Bool) :
    Except PyExc ((Option Vs × Option Emb) × ProcState) :=
  match ps.gvs.lookup s, force with
  | some v, false =>
    (match create_embeddings o with
     | .ok emb => .ok ((some v, some emb), ps)
     | .error e => .error e)
  | _, _ =>
    if force then .ok (liftDisk ps (build_vectorstore ps.disk o s))
    else
      match should_rebuild_vectorstore ps.disk s with
      | .error e => .error e
      | .ok true => .ok (liftDisk ps (build_vectorstore ps.disk o s))
      | .ok false => .ok (liftDisk ps (load_vectorstore ps.disk o s))

/-! ## Subject discovery -/

/-- Sorting subject names as Python's `sorted` does on strings. -/
def sortStrings (l : List String) : List String :=
  List.insertionSort (fun a b => strLeB a b = true) l

/-- Does a file name match `pathlib`'s `Path.glob("*.pdf")`?  Unlike the
module-level `glob.glob` used by the hasher and the builder, pathlib's
`*` also matches names with a leading dot, so this is a pure suffix test. -/
def pathlibPdf (n : String) : Bool := List.isSuffixOf ".pdf".toList n.toList

/-- Model of `get_available_subjects`: a missing curriculum root yields `[]`;
otherwise the names of subdirectories containing at least one file matching
`d.glob("*.pdf")` (pathlib semantics, hidden files included), sorted. -/
def get_available_subjects (root : Option (List Directory)) : List String :=
  match root with
  | none => []
  | some entries =>
    sortStrings ((entries.filter
      (fun d => d.isDir && d.files.any (fun f => pathlibPdf f.name))).map (fun d => d.name))

/-! ## RAG layer (rag.py) -/

/-- Model of `initialize_hf_llm`: reuse the singleton if set; otherwise a
missing token raises `EnvironmentError`, an endpoint failure re-raises, and
on success the global `LLM` is assigned. -/
def initialize_hf_llm (ps : ProcState) (o : Oracle) : Except PyExc (Llm × ProcState) :=
  match ps.llm with
  | some l => .ok (l, ps)
  | none =>
    match o.hfToken with
    | none => .error .environmentError
    | some _ =>
      if o.llmEndpointOk then .ok (.chatHF, { ps with llm := some .chatHF })
      else .error .externalError

/-- Model of `create_rag_components`: `None` vectorstore or `None` LLM yield
`None`; otherwise chain and retriever construction yields the components
dict, any exception yielding `None`. -/
def create_rag_components (o : Oracle) (vs : Option Vs) (llm : Option Llm) :
    Option Components :=
  match vs with
  | none => none
  | some v =>
    match llm with
    | none => none
    | some _ =>
      if o.chainOk then some ⟨some (.fromVs v), some .chain⟩ else none

/-- Insert or overwrite the entry of a key in an association list, as a
Python dict assignment does. -/
def setAssoc {α : Type} (l : List (String × α)) (k : String) (v : α) :
    List (String × α) :=
  match l with
  | [] => [(k, v)]
  | (k1, v1) :: t => if k1 == k then (k, v) :: t else (k1, v1) :: setAssoc t k v

/-- The LLM-ensuring preamble of `load_subject_components`: reuse a set
`LLM`, else call `initialize_hf_llm` (whose exception the caller catches). -/
def llmEnsure (ps : ProcState) (o : Oracle) : Except PyExc ProcState :=
  if ps.llm.isSome then .ok ps
  else
    match initialize_hf_llm ps o with
    | .ok (_, ps1) => .ok ps1
    | .error e => .error e

/-- Model of `load_subject_components`: ensure the LLM singleton, initialize
the subject's vectorstore (exceptions yield `False`), create the RAG
components, and only on full success store them in `RAG_COMPONENTS`. -/
def load_subject_components (ps : ProcState) (o : Oracle) (s : String) :
    Bool × ProcState :=
  match llmEnsure ps o with
  | .error _ => (false, ps)
  | .ok ps1 =>
    match initialize_vectorstore ps1 o s false with
    | .error _ => (false, ps1)
    | .ok ((vsOpt, _), ps2) =>
      match vsOpt with
      | none => (false, ps2)
      | some v =>
        match create_rag_components o (some v) ps2.llm with
        | some comps =>
          (true, { ps2 with ragComponents := setAssoc ps2.ragComponents s comps })
        | none => (false, ps2)

/-- The retrieval query f-string of `generate_lesson`. -/
def retrievalQuery (level subject topic : String) : String :=
  "SSS " ++ level ++ " " ++ subject ++ " syllabus content for the topic: " ++ topic

/-- Model of `generate_lesson`: an uninitialized subject returns `None`;
otherwise retrieval, context formatting and chain invocation run inside one
`try`, any exception returning `None` (missing component objects raise
`AttributeError` inside that same `try`). -/
def generate_lesson (ps : ProcState) (o : Oracle) (s topic level pace : String) :
    Option String :=
  match ps.ragComponents.lookup s with
  | none => none
  | some comps =>
    match comps.retriever, comps.llm_chain with
    | some _, some _ =>
      (match o.retrieve (retrievalQuery level s topic) with
       | .error _ => none
       | .ok docs =>
         match o.invoke (String.intercalate "\n---\n" docs) with
         | .error _ => none
         | .ok text => some text)
    | _, _ => none

/-! ## API layer (main.py) -/

/-- A `POST /lesson` request body (already validated by pydantic). -/
structure LessonRequest where
  subject : String
  topic : String
  sss_level : String
  learning_pace : String
deriving DecidableEq, Repr

/-- The `LessonResponse` success payload. -/
structure LessonResponse where
  subject : String
  topic : String
  sss_level : String
  learning_pace : String
  lesson_notes : String
  status : String
deriving DecidableEq, Repr

/-- Outcome of the endpoint: a 200 success payload, or an `HTTPException`
with its status code and detail. -/
inductive ApiResult where
  | success (resp : LessonResponse)
  | httpError (statusCode : Nat) (detail : String)
deriving DecidableEq, Repr

/-- The fallback lesson text the handler substitutes for a falsy result. -/
def placeholderNotes : String := "Lesson generation completed. Check server logs."

/-- Model of the `POST /lesson` handler `create_lesson`: 404 for an unknown
subject; lazy initialization with 503 on failure; then the lesson is
generated and always wrapped in a 200 success payload, a falsy (`None` or
empty) result being replaced by `placeholderNotes`.  The handler's own
500 branch fires only if `generate_lesson` raises, which the modelled
`generate_lesson` (catching all its internal exceptions) never does. -/
def create_lesson (ps : ProcState) (o : Oracle) (req : LessonRequest) :
    ApiResult × ProcState :=
  if !ps.availableSubjects.contains req.subject then
    (.httpError 404 ("Subject '" ++ req.subject ++ "' not found."), ps)
  else
    let lazy : Bool × ProcState :=
      match ps.ragComponents.lookup req.subject with
      | some _ => (true, ps)
      | none => load_subject_components ps o req.subject
    match lazy with
    | (false, ps1) =>
      (.httpError 503 ("Could not initialize '" ++ req.subject ++ "'"), ps1)
    | (true, ps1) =>
      let notes :=
        match generate_lesson ps1 o req.subject req.topic req.sss_level req.learning_pace with
        | some t => if t.isEmpty then placeholderNotes else t
        | none => placeholderNotes
      (.success ⟨req.subject, req.topic, req.sss_level, req.learning_pace, notes, "success"⟩,
       ps1)

/-! ## Derived definitions used by the statements -/

/-- Byte length a file contributes to the hash stream. -/
def encLen (f : PdfFile) : Nat := (strBytes f.name).length + f.content.length

/-- Name-order on files, the relation `sortByName` sorts by. -/
def pfLe (f g : PdfFile) : Prop := strLeB f.name g.name = true

/-- Are both slots of a components dict non-`None`? -/
def compOk (c : Components) : Bool := c.retriever.isSome && c.llm_chain.isSome

/-- Every entry of `RAG_COMPONENTS` holds a non-`None` retriever and a
non-`None` chain. -/
def ragInvariant (l : List (String × Components)) : Bool :=
  l.all (fun e => compOk e.2)

/-! ## Concrete fixtures -/

/-- An oracle on which every external collaborator succeeds. -/
def oracleOk : Oracle :=
  { pdfPages := fun _ _ => .ok ["page one"]
    split := fun docs => docs
    embedOk := true
    fromDocsOk := true
    saveOk := true
    loadOk := true
    hfToken := some "token"
    llmEndpointOk := true
    chainOk := true
    retrieve := fun _ => .ok ["retrieved context"]
    invoke := fun _ => .ok "LESSON TEXT"
    now := "2024-01-01T00:00:00" }

/-- A curriculum folder with one readable PDF. -/
def mathDir : Directory := ⟨"Mathematics", true, [⟨"algebra.pdf", [1, 2, 3]⟩]⟩

/-- Components dict for an initialized subject. -/
def c1Comps : Components := ⟨some (.fromVs (.built "Mathematics")), some .chain⟩

/-- Process state with subject Mathematics initialized. -/
def c1State : ProcState :=
  ⟨["Mathematics"], ⟨none, []⟩, [], some .chatHF, [("Mathematics", c1Comps)]⟩

/-- Oracle whose retrieval step raises. -/
def c1Oracle : Oracle := { oracleOk with retrieve := fun _ => .error () }

/-- A well-formed lesson request for Mathematics. -/
def c1Req : LessonRequest := ⟨"Mathematics", "Algebra", "SSS 1", "low"⟩

/-- Fresh process state with a valid Mathematics curriculum and nothing
cached. -/
def c2State : ProcState := ⟨["Mathematics"], ⟨some [mathDir], []⟩, [], none, []⟩

/-- File set one of the hash collision: a single file whose content happens
to spell a file name. -/
def c3FilesOne : List PdfFile := [⟨"a.pdf", strBytes "b.pdfX"⟩]

/-- File set two of the hash collision: two files jointly producing the same
md5 input stream as `c3FilesOne`. -/
def c3FilesTwo : List PdfFile := [⟨"a.pdf", []⟩, ⟨"b.pdf", strBytes "X"⟩]

/-- Small distinct files for the order-independence witness. -/
def c3wA : PdfFile := ⟨"a.pdf", [0]⟩

/-- Second file for the order-independence witness. -/
def c3wB : PdfFile := ⟨"b.pdf", [1]⟩

/-- State whose `RAG_COMPONENTS` lacks subject Math. -/
def c4StateU : ProcState := ⟨["Math"], ⟨none, []⟩, [], some .chatHF, []⟩

/-- Components for an initialized Math subject. -/
def c4Comps : Components := ⟨some (.fromVs (.loaded "Math")), some .chain⟩

/-- State whose `RAG_COMPONENTS` holds subject Math. -/
def c4StateI : ProcState :=
  ⟨["Math"], ⟨none, []⟩, [], some .chatHF, [("Math", c4Comps)]⟩

/-- Oracle whose retrieval raises (downstream generation error). -/
def c4Oracle : Oracle := { oracleOk with retrieve := fun _ => .error () }

/-- State with no persisted index for Mathematics (index files absent). -/
def c5StateA : ProcState := ⟨["Mathematics"], ⟨some [mathDir], []⟩, [], none, []⟩

/-- Metadata file bytes storing the fingerprint of an empty folder. -/
def c5MetaMatch : Bytes := strBytes "\x7b\"file_hash\": \"\"\x7d"

/-- Metadata file bytes storing a mismatching fingerprint. -/
def c5MetaMismatch : Bytes := strBytes "\x7b\"file_hash\": \"x\"\x7d"

/-- The parsed record of `c5MetaMatch`. -/
def c5RecordMatch : Json := .obj [("file_hash".toList, .str [])]

/-- The parsed record of `c5MetaMismatch`. -/
def c5RecordMismatch : Json := .obj [("file_hash".toList, .str ['x'])]

/-- State whose persisted Empty-subject index is fresh (stored fingerprint
equals the current one). -/
def c5StateB : ProcState :=
  ⟨["Empty"], ⟨some [⟨"Empty", true, []⟩], [("Empty", ⟨true, true, some c5MetaMatch⟩)]⟩,
   [], none, []⟩

/-- State whose persisted Empty-subject index is stale (stored fingerprint
differs from the current one). -/
def c5StateC : ProcState :=
  ⟨["Empty"], ⟨some [⟨"Empty", true, []⟩], [("Empty", ⟨true, true, some c5MetaMismatch⟩)]⟩,
   [], none, []⟩

/-- Disk with a valid Mathematics curriculum and no persisted store. -/
def c6Disk : DiskState := ⟨some [mathDir], []⟩

/-- Oracle whose `save_local` raises. -/
def c6OracleFail : Oracle := { oracleOk with saveOk := false }

/-- Disk for the loader-fallback witness (no index.faiss present). -/
def c8Disk : DiskState := ⟨some [mathDir], []⟩

/-- Fresh state for the components-invariant witness. -/
def c9State : ProcState := ⟨["Mathematics"], ⟨some [mathDir], []⟩, [], none, []⟩

/-- Curriculum-root entries for the subject-discovery witness: a subject
with a PDF, one whose only PDF is hidden (still matched by pathlib's
`glob`), a subject without PDFs, and a plain file. -/
def c10Entries : List Directory :=
  [⟨"Biology", true, [⟨"b.pdf", []⟩]⟩, ⟨"Hidden", true, [⟨".secret.pdf", []⟩]⟩,
   ⟨"Empty", true, []⟩, ⟨"notes.txt", false, []⟩]

/-! ## Helper lemmas: the string order -/

/-- Characters with equal code points are equal. -/
theorem char_toNat_inj {a b : Char} (h : a.toNat = b.toNat) : a = b :=
  Char.eq_of_val_eq (UInt32.ext h)

/-- Totality of the code-point order on character lists. -/
theorem leChars_total (a b : List Char) : leChars a b = true ∨ leChars b a = true := by
  induction a generalizing b with
  | nil => left; rfl
  | cons x xs ih =>
    cases b with
    | nil => right; rfl
    | cons y ys =>
      by_cases h1 : x.toNat < y.toNat
      · left; simp [leChars, h1]
      · by_cases h2 : y.toNat < x.toNat
        · right; simp [leChars, h2]
        · rcases ih ys with h | h
          · left; simp [leChars, h1, h2, h]
          · right; simp [leChars, h1, h2, h]

/-- Transitivity of the code-point order on character lists. -/
theorem leChars_trans {a b c : List Char} (h1 : leChars a b = true)
    (h2 : leChars b c = true) : leChars a c = true := by
  induction a generalizing b c with
  | nil => rfl
  | cons x xs ih =>
    cases b with
    | nil => simp [leChars] at h1
    | cons y ys =>
      cases c with
      | nil => simp [leChars] at h2
      | cons z zs =>
        simp only [leChars] at h1 h2 ⊢
        by_cases hxy : x.toNat < y.toNat
        · by_cases hyz : y.toNat < z.toNat
          · simp [show x.toNat < z.toNat by omega]
          · by_cases hzy : z.toNat < y.toNat
            · simp [hyz, hzy] at h2
            · simp [show x.toNat < z.toNat by omega]
        · by_cases hyx : y.toNat < x.toNat
          · simp [hxy, hyx] at h1
          · by_cases hyz : y.toNat < z.toNat
            · simp [show x.toNat < z.toNat by omega]
            · by_cases hzy : z.toNat < y.toNat
              · simp [hyz, hzy] at h2
              · have hxz : ¬ x.toNat < z.toNat := by omega
                have hzx : ¬ z.toNat < x.toNat := by omega
                simp [hxy, hyx] at h1
                simp [hyz, hzy] at h2
                simp [hxz, hzx]
                exact ih h1 h2

/-- Antisymmetry of the code-point order on character lists. -/
theorem leChars_antisymm {a b : List Char} (h1 : leChars a b = true)
    (h2 : leChars b a = true) : a = b := by
  induction a generalizing b with
  | nil =>
    cases b with
    | nil => rfl
    | cons y ys => simp [leChars] at h2
  | cons x xs ih =>
    cases b with
    | nil => simp [leChars] at h1
    | cons y ys =>
      simp only [leChars] at h1 h2
      by_cases hxy : x.toNat < y.toNat
      · simp [hxy, Nat.lt_asymm hxy] at h2
      · by_cases hyx : y.toNat < x.toNat
        · simp [hxy, hyx] at h1
        · have : x = y := char_toNat_inj (by omega)
          subst this
          simp [hxy] at h1 h2
          rw [ih h1 h2]

/-- Totality of the modelled string order. -/
theorem strLeB_total (a b : String) : strLeB a b = true ∨ strLeB b a = true :=
  leChars_total a.toList b.toList

/-- Transitivity of the modelled string order. -/
theorem strLeB_trans {a b c : String} (h1 : strLeB a b = true)
    (h2 : strLeB b c = true) : strLeB a c = true :=
  leChars_trans h1 h2

/-- Antisymmetry of the modelled string order. -/
theorem strLeB_antisymm {a b : String} (h1 : strLeB a b = true)
    (h2 : strLeB b a = true) : a = b :=
  String.ext (leChars_antisymm h1 h2)

/-! ## Helper lemmas: sorting -/

/-- Sorting by name permutes the file list. -/
theorem sortByName_perm (l : List PdfFile) : (sortByName l).Perm l :=
  List.perm_insertionSort _ l

/-- Sorting by name yields a name-ordered list. -/
theorem sortByName_sorted (l : List PdfFile) :
    List.Sorted (fun f g : PdfFile => strLeB f.name g.name = true) (sortByName l) := by
  haveI : IsTotal PdfFile (fun f g : PdfFile => strLeB f.name g.name = true) :=
    ⟨fun f g => strLeB_total f.name g.name⟩
  haveI : IsTrans PdfFile (fun f g : PdfFile => strLeB f.name g.name = true) :=
    ⟨fun _ _ _ => strLeB_trans⟩
  exact List.sorted_insertionSort _ l

/-- Sorting a name-ordered file list is the identity. -/
theorem sortByName_eq_self {l : List PdfFile}
    (h : List.Sorted (fun f g : PdfFile => strLeB f.name g.name = true) l) :
    sortByName l = l :=
  List.Sorted.insertionSort_eq h

/-- Two name-ordered lists of files with no duplicate names that are
permutations of each other are equal. -/
theorem eq_of_perm_of_sortedByName {l1 l2 : List PdfFile}
    (hp : l1.Perm l2)
    (hs1 : List.Sorted (fun f g : PdfFile => strLeB f.name g.name = true) l1)
    (hs2 : List.Sorted (fun f g : PdfFile => strLeB f.name g.name = true) l2)
    (hn : (l1.map PdfFile.name).Nodup) : l1 = l2 := by
  haveI : IsAntisymm PdfFile
      (fun f g : PdfFile => strLeB f.name g.name = true ∧ f.name ≠ g.name) :=
    ⟨fun f g h1 h2 => absurd (strLeB_antisymm h1.1 h2.1) h1.2⟩
  have hn2 : (l2.map PdfFile.name).Nodup := ((hp.map PdfFile.name).nodup_iff).mp hn
  have hne1 : List.Pairwise (fun f g : PdfFile => f.name ≠ g.name) l1 :=
    List.pairwise_map.mp hn
  have hne2 : List.Pairwise (fun f g : PdfFile => f.name ≠ g.name) l2 :=
    List.pairwise_map.mp hn2
  exact List.eq_of_perm_of_sorted hp (hs1.and hne1) (hs2.and hne2)

/-! ## Helper lemmas: the hash stream -/

/-- The stream of an appended list is the appended streams. -/
theorem encStream_append (a b : List PdfFile) :
    encStream (a ++ b) = encStream a ++ encStream b := by
  induction a with
  | nil => rfl
  | cons f l ih => simp [encStream, ih]

/-- The stream's length is the sum of the per-file contributions. -/
theorem encStream_length (l : List PdfFile) :
    (encStream l).length = (l.map encLen).sum := by
  induction l with
  | nil => rfl
  | cons f t ih =>
    simp [encStream, encLen, ih]
    omega

/-- A single character encodes to at least one byte. -/
theorem utf8EncodeChar_ne_nil (c : Char) : utf8EncodeChar c ≠ [] := by
  unfold utf8EncodeChar
  dsimp only
  split
  · simp
  split
  · simp
  split <;> simp

/-- A nonempty string encodes to a nonempty byte sequence. -/
theorem strBytes_ne_nil {s : String} (h : s ≠ "") : strBytes s ≠ [] := by
  unfold strBytes
  cases hd : s.toList with
  | nil => exact absurd (String.ext hd) h
  | cons c cs =>
    simp only [bytesOfChars]
    intro hx
    exact utf8EncodeChar_ne_nil c (List.append_eq_nil.mp hx).1

/-- A qualifying file name is nonempty. -/
theorem qualifies_name_ne_empty {n : String} (h : qualifiesPdf n = true) : n ≠ "" := by
  intro he
  subst he
  exact absurd h (by decide)

/-! ## Helper lemmas: disk stores and association lists -/

/-- Reading back the updated entry of a subject's store. -/
theorem lookup_updStores_self (l : List (String × VsDir)) (s : String) (f : VsDir → VsDir) :
    (updStores l s f).lookup s = some (f ((l.lookup s).getD ⟨false, false, none⟩)) := by
  induction l with
  | nil => simp [updStores, List.lookup]
  | cons kv t ih =>
    obtain ⟨k, v⟩ := kv
    by_cases hk : k == s
    · simp [updStores, hk, List.lookup, beq_iff_eq.mp hk]
    · have : ¬(s == k) := by
        intro hs
        exact hk (beq_iff_eq.mpr (beq_iff_eq.mp hs).symm)
      simp [updStores, hk, List.lookup, this, ih]

/-- `getStore` after `setStore` of the same subject. -/
theorem getStore_setStore_self (st : DiskState) (s : String) (f : VsDir → VsDir) :
    getStore (setStore st s f) s = f (getStore st s) := by
  simp [getStore, setStore, lookup_updStores_self]

/-- Reading back the entry just written into an association list. -/
theorem lookup_setAssoc_self {α : Type} (l : List (String × α)) (k : String) (v : α) :
    (setAssoc l k v).lookup k = some v := by
  induction l with
  | nil => simp [setAssoc, List.lookup]
  | cons kv t ih =>
    obtain ⟨k1, v1⟩ := kv
    by_cases hk : k1 == k
    · simp [setAssoc, hk, List.lookup, beq_iff_eq.mp hk]
    · have : ¬(k == k1) := by
        intro hs
        exact hk (beq_iff_eq.mpr (beq_iff_eq.mp hs).symm)
      simp [setAssoc, hk, List.lookup, this, ih]

/-- Writing a well-formed components dict preserves the map invariant. -/
theorem ragInvariant_setAssoc {l : List (String × Components)} {k : String}
    {v : Components} (hl : ragInvariant l = true) (hv : compOk v = true) :
    ragInvariant (setAssoc l k v) = true := by
  induction l with
  | nil => simp [setAssoc, ragInvariant, hv]
  | cons kv t ih =>
    obtain ⟨k1, v1⟩ := kv
    simp only [ragInvariant, List.all_cons, Bool.and_eq_true] at hl
    by_cases hk : k1 == k
    · simp [setAssoc, hk, ragInvariant, hv, hl.2]
    · have ht := ih hl.2
      simp [setAssoc, hk, ragInvariant, hl.1, hv] at ht ⊢
      exact ht

/-! ## Claim C7 -/

/-- C7: the claim says `read(subject)` (get_metadata) never raises for any
byte content of the metadata file, treating unparseable data as an empty
record.  The code catches only `json.JSONDecodeError`; a metadata file whose
bytes are not decodable text (here the single byte `0xFF`) raises
`UnicodeDecodeError` out of `get_metadata` instead of yielding the empty
record — the spec is the evident intent and the narrow except-clause the
slip. -/
theorem c7_get_metadata_raises_on_undecodable_bytes :
    get_metadata (some [255]) = .error .unicodeDecodeError := rfl

/-! ## Claim C2 -/

/-- C2: the claim says a successful `initialize_vectorstore` stores the
resulting index in `GLOBAL_VECTORSTORES`.  Evaluating the code on a fresh
state with a valid Mathematics curriculum: the call succeeds with a freshly
built store, yet the cache is still empty afterwards — no statement in the
code ever writes `GLOBAL_VECTORSTORES`, so a subsequent call re-validates
and reloads from disk instead of returning a cached entry. -/
theorem c2_cache_never_populated :
    (initialize_vectorstore c2State oracleOk "Mathematics" false).toOption.map
      (fun p => (p.1.1, p.2.gvs)) =
    some (some (Vs.built "Mathematics"), ([] : List (String × Vs))) := rfl

/-! ## Claim C1 -/

/-- C1 counterexample: a request for a known, initialized subject whose
retrieval step raises.  The claim requires a 500-class response; the code
returns a 200 success payload with the placeholder lesson text, because
`generate_lesson` swallows the exception and returns `None`. -/
theorem c1_counterexample :
    c1Oracle.retrieve (retrievalQuery "SSS 1" "Mathematics" "Algebra") = .error ()
    ∧ create_lesson c1State c1Oracle c1Req =
        (.success ⟨"Mathematics", "Algebra", "SSS 1", "low", placeholderNotes, "success"⟩,
         c1State) :=
  ⟨rfl, rfl⟩

/-- C1 amended: for a known subject with initialized components, a failing
generation step (any exception during retrieval or model invocation, caught
inside `generate_lesson`, which then returns `None`) produces a 200 success
response whose `lesson_notes` is the placeholder text — not a 500-class
error. -/
theorem c1_amended_success_with_placeholder (ps : ProcState) (o : Oracle)
    (req : LessonRequest) (r : Retriever) (c : LlmChain)
    (havail : ps.availableSubjects.contains req.subject = true)
    (hcomp : ps.ragComponents.lookup req.subject = some ⟨some r, some c⟩)
    (hgen : generate_lesson ps o req.subject req.topic req.sss_level req.learning_pace
      = none) :
    create_lesson ps o req =
      (.success ⟨req.subject, req.topic, req.sss_level, req.learning_pace,
        placeholderNotes, "success"⟩, ps) := by
  have hmem : req.subject ∈ ps.availableSubjects := by simpa using havail
  simp [create_lesson, hmem, hcomp, hgen]

/-- C1 amended, witness at the concrete fixture. -/
theorem c1_amended_witness :
    create_lesson c1State c1Oracle c1Req =
      (.success ⟨"Mathematics", "Algebra", "SSS 1", "low", placeholderNotes, "success"⟩,
       c1State) :=
  c1_amended_success_with_placeholder c1State c1Oracle c1Req
    (.fromVs (.built "Mathematics")) .chain rfl rfl rfl

/-! ## Claim C4 -/

/-- C4 counterexample: the claim says the not-initialized failure of
`generate_lesson` is distinguishable by the caller from a downstream
retrieval/generation failure.  Both return exactly `None`: on a state
without components for Math and on a state with components but a raising
retriever, the results are equal. -/
theorem c4_counterexample :
    generate_lesson c4StateU c4Oracle "Math" "T" "SSS 1" "low" = none
    ∧ generate_lesson c4StateI c4Oracle "Math" "T" "SSS 1" "low" = none
    ∧ (c4StateI.ragComponents.lookup "Math").isSome = true
    ∧ c4Oracle.retrieve (retrievalQuery "SSS 1" "Math" "T") = .error () :=
  ⟨rfl, rfl, rfl, rfl⟩

/-- C4 amended: calling `generate_lesson` for a subject with no initialized
components returns `None`, and a downstream retrieval error also returns
`None`: the two failures carry the same caller-visible signal, being
distinguished only in the server logs. -/
theorem c4_amended_same_failure_signal (ps : ProcState) (o : Oracle)
    (s topic level pace : String) :
    (ps.ragComponents.lookup s = none →
      generate_lesson ps o s topic level pace = none)
    ∧ (∀ r c, ps.ragComponents.lookup s = some ⟨some r, some c⟩ →
        o.retrieve (retrievalQuery level s topic) = .error () →
        generate_lesson ps o s topic level pace = none) := by
  constructor
  · intro h
    simp [generate_lesson, h]
  · intro r c h hr
    simp [generate_lesson, h, hr]

/-- C4 amended, witness at the concrete fixtures. -/
theorem c4_amended_witness :
    generate_lesson c4StateU c4Oracle "Math" "T" "SSS 1" "low" = none
    ∧ generate_lesson c4StateI c4Oracle "Math" "T" "SSS 1" "low" = none :=
  ⟨(c4_amended_same_failure_signal c4StateU c4Oracle "Math" "T" "SSS 1" "low").1 rfl,
   (c4_amended_same_failure_signal c4StateI c4Oracle "Math" "T" "SSS 1" "low").2
     (.fromVs (.loaded "Math")) .chain rfl rfl⟩

/-! ## Claim C3 -/

/-- C3 counterexample: the fingerprint is not injective over qualifying file
sets.  Because file names and contents are concatenated into the md5
accumulator without any separator, the one-file set
`{a.pdf ↦ "b.pdfX"}` and the two-file set `{a.pdf ↦ "", b.pdf ↦ "X"}` feed
the identical byte stream to md5, so the real code returns the identical
hexdigest for these two distinct folders. -/
theorem c3_counterexample :
    get_folder_hash c3FilesOne = get_folder_hash c3FilesTwo
    ∧ c3FilesOne ≠ c3FilesTwo := by
  constructor
  · decide
  · decide

/-- The hash stream's length is the sum of the per-file contributions of
the qualifying files, independently of order. -/
theorem get_folder_hash_length (files : List PdfFile) :
    (get_folder_hash files).length =
      (((files.filter (fun f => qualifiesPdf f.name)).map encLen).sum) := by
  unfold get_folder_hash
  rw [encStream_length]
  exact ((sortByName_perm _).map encLen).sum_eq

/-- A qualifying file contributes at least one byte to the stream. -/
theorem encLen_pos {f : PdfFile} (h : qualifiesPdf f.name = true) : 0 < encLen f := by
  unfold encLen
  have h1 : strBytes f.name ≠ [] := strBytes_ne_nil (qualifies_name_ne_empty h)
  have h2 : 0 < (strBytes f.name).length := List.length_pos.mpr h1
  omega

/-- C3 amended: the fingerprint is a deterministic function of the set of
qualifying files — permuting the folder's enumeration never changes it —
and changing one file's bytes while the other files stay fixed, or adding
(equivalently removing) a file while the other files stay fixed, always
changes it.  (Injectivity over arbitrary distinct file sets, by contrast,
fails: see the counterexample.)  Fingerprint equality is stated on the md5
input stream; the real digests agree whenever the streams agree, and differ
on differing streams under the collision-free idealization of md5. -/
theorem c3_amended_hash_properties :
    (∀ l1 l2 : List PdfFile, l1.Perm l2 → (l1.map PdfFile.name).Nodup →
      get_folder_hash l1 = get_folder_hash l2)
    ∧ (∀ (x y : List PdfFile) (n : String) (c c' : Bytes), c ≠ c' →
        qualifiesPdf n = true →
        List.Pairwise (fun a b => strLeB a b = true) ((x ++ ⟨n, c⟩ :: y).map PdfFile.name) →
        get_folder_hash (x ++ ⟨n, c⟩ :: y) ≠ get_folder_hash (x ++ ⟨n, c'⟩ :: y))
    ∧ (∀ (l : List PdfFile) (f : PdfFile), qualifiesPdf f.name = true →
        get_folder_hash (f :: l) ≠ get_folder_hash l) := by
  refine ⟨?_, ?_, ?_⟩
  · -- order independence
    intro l1 l2 hp hn
    have hfp : (l1.filter (fun f => qualifiesPdf f.name)).Perm
        (l2.filter (fun f => qualifiesPdf f.name)) := hp.filter _
    have hs1 := sortByName_sorted (l1.filter (fun f => qualifiesPdf f.name))
    have hs2 := sortByName_sorted (l2.filter (fun f => qualifiesPdf f.name))
    have hperm : (sortByName (l1.filter (fun f => qualifiesPdf f.name))).Perm
        (sortByName (l2.filter (fun f => qualifiesPdf f.name))) :=
      ((sortByName_perm _).trans hfp).trans (sortByName_perm _).symm
    have hfs : (l1.filter (fun f => qualifiesPdf f.name)).Sublist l1 :=
      List.filter_sublist l1
    have hn1 : ((l1.filter (fun f => qualifiesPdf f.name)).map PdfFile.name).Nodup :=
      ((hfs.map PdfFile.name).nodup hn)
    have hns : ((sortByName (l1.filter (fun f => qualifiesPdf f.name))).map
        PdfFile.name).Nodup :=
      (((sortByName_perm _).map PdfFile.name).nodup_iff).mpr hn1
    unfold get_folder_hash
    rw [eq_of_perm_of_sortedByName hperm hs1 hs2 hns]
  · -- single-file modification
    intro x y n c c' hc hq hsorted
    have hnames : ((x ++ (⟨n, c'⟩ : PdfFile) :: y).map PdfFile.name) =
        ((x ++ (⟨n, c⟩ : PdfFile) :: y).map PdfFile.name) := by
      simp
    have hsorted' := hsorted
    rw [← hnames] at hsorted'
    have hpw : List.Pairwise (fun f g : PdfFile => strLeB f.name g.name = true)
        (x ++ (⟨n, c⟩ : PdfFile) :: y) := List.pairwise_map.mp hsorted
    have hpw' : List.Pairwise (fun f g : PdfFile => strLeB f.name g.name = true)
        (x ++ (⟨n, c'⟩ : PdfFile) :: y) := List.pairwise_map.mp hsorted'
    have hfilter : ∀ cc : Bytes,
        (x ++ (⟨n, cc⟩ : PdfFile) :: y).filter (fun f => qualifiesPdf f.name) =
          x.filter (fun f => qualifiesPdf f.name) ++
            (⟨n, cc⟩ : PdfFile) :: y.filter (fun f => qualifiesPdf f.name) := by
      intro cc
      simp [List.filter_append, List.filter_cons, hq]
    have hsortfix : ∀ (cc : Bytes),
        List.Pairwise (fun f g : PdfFile => strLeB f.name g.name = true)
          (x ++ (⟨n, cc⟩ : PdfFile) :: y) →
        sortByName ((x ++ (⟨n, cc⟩ : PdfFile) :: y).filter
          (fun f => qualifiesPdf f.name)) =
          x.filter (fun f => qualifiesPdf f.name) ++
            (⟨n, cc⟩ : PdfFile) :: y.filter (fun f => qualifiesPdf f.name) := by
      intro cc hcc
      rw [hfilter cc]
      apply sortByName_eq_self
      have hsubx : (x.filter (fun f => qualifiesPdf f.name)).Sublist x :=
        List.filter_sublist x
      have hsuby : (y.filter (fun f => qualifiesPdf f.name)).Sublist y :=
        List.filter_sublist y
      have hsub : (x.filter (fun f => qualifiesPdf f.name) ++
          (⟨n, cc⟩ : PdfFile) :: y.filter (fun f => qualifiesPdf f.name)).Sublist
          (x ++ (⟨n, cc⟩ : PdfFile) :: y) :=
        hsubx.append (hsuby.cons₂ (⟨n, cc⟩ : PdfFile))
      exact hcc.sublist hsub
    intro heq
    unfold get_folder_hash at heq
    rw [hsortfix c hpw, hsortfix c' hpw'] at heq
    rw [encStream_append, encStream_append] at heq
    have heq2 := List.append_cancel_left heq
    simp only [encStream] at heq2
    rw [List.append_assoc, List.append_assoc] at heq2
    have heq3 := List.append_cancel_left heq2
    exact hc (List.append_cancel_right heq3)
  · -- addition/removal of one file
    intro l f hq heq
    have h1 := get_folder_hash_length (f :: l)
    have h2 := get_folder_hash_length l
    simp only [List.filter_cons, hq, if_true, List.map_cons, List.sum_cons] at h1
    have hpos := encLen_pos hq
    have hlen : (get_folder_hash (f :: l)).length = (get_folder_hash l).length := by
      rw [heq]
    omega

/-- C3 amended, witness: concrete instances of all three clauses. -/
theorem c3_amended_witness :
    get_folder_hash [c3wA, c3wB] = get_folder_hash [c3wB, c3wA]
    ∧ get_folder_hash [⟨"a.pdf", [0]⟩] ≠ get_folder_hash [⟨"a.pdf", [1]⟩]
    ∧ get_folder_hash [c3wA, c3wB] ≠ get_folder_hash [c3wB] := by
  refine ⟨?_, ?_, ?_⟩
  · exact c3_amended_hash_properties.1 [c3wA, c3wB] [c3wB, c3wA] (by decide) (by decide)
  · exact c3_amended_hash_properties.2.1 [] [] "a.pdf" [0] [1] (by decide) (by decide)
      (by simp)
  · exact c3_amended_hash_properties.2.2 [c3wB] c3wA (by decide)

/-! ## Claim C10 -/

/-- C10: `get_available_subjects` returns the empty list without error when
the curriculum root does not exist; its result is sorted ascending by name
(Python's code-point string order); and a name is listed exactly when the
root has a directory of that name containing at least one file matched by
pathlib's `d.glob("*.pdf")` (a `.pdf`-suffixed name, hidden files
included) — a subject folder with zero PDFs is never listed. -/
theorem c10_available_subjects (root : Option (List Directory)) :
    (root = none → get_available_subjects root = [])
    ∧ List.Pairwise (fun a b => strLeB a b = true) (get_available_subjects root)
    ∧ (∀ entries, root = some entries →
        ∀ nm, nm ∈ get_available_subjects root ↔
          ∃ d ∈ entries, d.name = nm ∧ d.isDir = true ∧
            ∃ f ∈ d.files, pathlibPdf f.name = true) := by
  refine ⟨?_, ?_, ?_⟩
  · intro h
    subst h
    rfl
  · cases root with
    | none => simp [get_available_subjects]
    | some entries =>
      haveI : IsTotal String (fun a b : String => strLeB a b = true) :=
        ⟨fun a b => strLeB_total a b⟩
      haveI : IsTrans String (fun a b : String => strLeB a b = true) :=
        ⟨fun _ _ _ => strLeB_trans⟩
      exact List.sorted_insertionSort _ _
  · intro entries h nm
    subst h
    unfold get_available_subjects sortStrings
    rw [(List.perm_insertionSort (fun a b : String => strLeB a b = true) _).mem_iff]
    constructor
    · intro hm
      rcases List.mem_map.mp hm with ⟨d, hd, hdn⟩
      rcases List.mem_filter.mp hd with ⟨hde, hdq⟩
      have hdq2 : d.isDir = true ∧ d.files.any (fun f => pathlibPdf f.name) = true := by
        simpa using hdq
      rcases List.any_eq_true.mp hdq2.2 with ⟨f, hf, hfq⟩
      exact ⟨d, hde, hdn, hdq2.1, f, hf, hfq⟩
    · rintro ⟨d, hde, hdn, hdir, f, hf, hfq⟩
      refine List.mem_map.mpr ⟨d, List.mem_filter.mpr ⟨hde, ?_⟩, hdn⟩
      have : d.files.any (fun f => pathlibPdf f.name) = true :=
        List.any_eq_true.mpr ⟨f, hf, hfq⟩
      simp [hdir, this]

/-- C10 witness: on a concrete root, the subject with a visible PDF and the
subject whose only PDF is hidden are both listed. -/
theorem c10_witness :
    "Biology" ∈ get_available_subjects (some c10Entries)
    ∧ "Hidden" ∈ get_available_subjects (some c10Entries) :=
  ⟨((c10_available_subjects (some c10Entries)).2.2 c10Entries rfl "Biology").mpr
    ⟨⟨"Biology", true, [⟨"b.pdf", []⟩]⟩, by decide, rfl, rfl, ⟨"b.pdf", []⟩,
     by decide, by decide⟩,
   ((c10_available_subjects (some c10Entries)).2.2 c10Entries rfl "Hidden").mpr
    ⟨⟨"Hidden", true, [⟨".secret.pdf", []⟩]⟩, by decide, rfl, rfl, ⟨".secret.pdf", []⟩,
     by decide, by decide⟩⟩

/-! ## Claim C9 -/

/-- `initialize_hf_llm` touches only the `LLM` singleton. -/
theorem initialize_hf_llm_preserves {ps ps1 : ProcState} {o : Oracle} {l : Llm}
    (h : initialize_hf_llm ps o = .ok (l, ps1)) :
    ps1.ragComponents = ps.ragComponents ∧ ps1.gvs = ps.gvs ∧ ps1.disk = ps.disk := by
  unfold initialize_hf_llm at h
  split at h
  · simp only [Except.ok.injEq, Prod.mk.injEq] at h
    rw [← h.2]
    exact ⟨rfl, rfl, rfl⟩
  · split at h
    · exact absurd h (by simp)
    · split at h
      · simp only [Except.ok.injEq, Prod.mk.injEq] at h
        rw [← h.2]
        exact ⟨rfl, rfl, rfl⟩
      · exact absurd h (by simp)

/-- `initialize_vectorstore` touches only the disk. -/
theorem initialize_vectorstore_preserves {ps ps2 : ProcState} {o : Oracle} {s : String}
    {force : Bool} {r : Option Vs × Option Emb}
    (h : initialize_vectorstore ps o s force = .ok (r, ps2)) :
    ps2.ragComponents = ps.ragComponents ∧ ps2.gvs = ps.gvs ∧ ps2.llm = ps.llm := by
  unfold initialize_vectorstore at h
  split at h
  · split at h
    · simp only [Except.ok.injEq, Prod.mk.injEq] at h
      rw [← h.2]
      exact ⟨rfl, rfl, rfl⟩
    · exact absurd h (by simp)
  · split at h
    · simp only [Except.ok.injEq, liftDisk, Prod.mk.injEq] at h
      rw [← h.2]
      exact ⟨rfl, rfl, rfl⟩
    · split at h
      · exact absurd h (by simp)
      · simp only [Except.ok.injEq, liftDisk, Prod.mk.injEq] at h
        rw [← h.2]
        exact ⟨rfl, rfl, rfl⟩
      · simp only [Except.ok.injEq, liftDisk, Prod.mk.injEq] at h
        rw [← h.2]
        exact ⟨rfl, rfl, rfl⟩

/-- Preservation through the LLM-ensuring step. -/
theorem llmEnsure_preserves {ps ps1 : ProcState} {o : Oracle}
    (h : llmEnsure ps o = .ok ps1) :
    ps1.ragComponents = ps.ragComponents ∧ ps1.gvs = ps.gvs ∧ ps1.disk = ps.disk := by
  unfold llmEnsure at h
  split at h
  · simp only [Except.ok.injEq] at h
    rw [← h]
    exact ⟨rfl, rfl, rfl⟩
  · split at h
    · rename_i l ps1b heq
      simp only [Except.ok.injEq] at h
      rw [← h]
      exact initialize_hf_llm_preserves heq
    · exact absurd h (by simp)

/-- C9: invariant of `RAG_COMPONENTS` — every stored entry holds a
non-`None` retriever and a non-`None` chain; `load_subject_components`
preserves the invariant, leaves the map unchanged whenever it returns
`False`, and on `True` it has stored exactly one well-formed components
dict for the requested subject (insertion happens only when LLM
initialization, vectorstore initialization and component creation all
succeed). -/
theorem c9_rag_components_invariant (ps : ProcState) (o : Oracle) (s : String)
    (hinv : ragInvariant ps.ragComponents = true) :
    ragInvariant (load_subject_components ps o s).2.ragComponents = true
    ∧ ((load_subject_components ps o s).1 = false →
        (load_subject_components ps o s).2.ragComponents = ps.ragComponents)
    ∧ ((load_subject_components ps o s).1 = true →
        ∃ comps, compOk comps = true ∧
          (load_subject_components ps o s).2.ragComponents =
            setAssoc ps.ragComponents s comps) := by
  unfold load_subject_components
  split
  · -- LLM step raised
    exact ⟨hinv, fun _ => rfl, fun hc => absurd hc (by simp)⟩
  · rename_i ps1 hllm
    have hps1 : ps1.ragComponents = ps.ragComponents := (llmEnsure_preserves hllm).1
    split
    · -- initialize_vectorstore raised
      exact ⟨hps1 ▸ hinv, fun _ => hps1, fun hc => absurd hc (by simp)⟩
    · rename_i vsOpt emb ps2 hinit
      have hps2 : ps2.ragComponents = ps.ragComponents :=
        (initialize_vectorstore_preserves hinit).1.trans hps1
      split
      · -- vectorstore is None
        exact ⟨hps2 ▸ hinv, fun _ => hps2, fun hc => absurd hc (by simp)⟩
      · rename_i v hv
        split
        · rename_i comps hcomps
          have hok : compOk comps = true := by
            unfold create_rag_components at hcomps
            split at hcomps
            · exact absurd hcomps (by simp)
            · split at hcomps
              · exact absurd hcomps (by simp)
              · split at hcomps
                · simp only [Option.some.injEq] at hcomps
                  rw [← hcomps]
                  rfl
                · exact absurd hcomps (by simp)
          refine ⟨?_, fun hc => absurd hc (by simp), fun _ => ⟨comps, hok, by
            simp only []
            rw [hps2]⟩⟩
          simp only []
          rw [hps2]
          exact ragInvariant_setAssoc hinv hok
        · -- create_rag_components returned None
          exact ⟨hps2 ▸ hinv, fun _ => hps2, fun hc => absurd hc (by simp)⟩

/-- C9 witness: a full successful lazy initialization from an empty map,
with all hypotheses discharged concretely. -/
theorem c9_witness :
    ragInvariant (load_subject_components c9State oracleOk "Mathematics").2.ragComponents
      = true :=
  (c9_rag_components_invariant c9State oracleOk "Mathematics" rfl).1

/-! ## Claim C8 -/

/-- C8: whenever loading the persisted index fails for any reason — the
index file is missing, embeddings construction raises, `FAISS.load_local`
raises, or even the metadata display read raises — `load_vectorstore`
falls back to invoking the builder, returning exactly the builder's result
instead of propagating the error. -/
theorem c8_load_falls_back_to_build (st : DiskState) (o : Oracle) (s : String)
    (h : (getStore st s).hasFaiss = false ∨ o.embedOk = false ∨ o.loadOk = false ∨
      ∃ e, get_metadata (getStore st s).metadataFile = .error e) :
    load_vectorstore st o s = build_vectorstore st o s := by
  unfold load_vectorstore
  rcases h with h | h | h | ⟨e, h⟩
  · simp [h]
  · by_cases hf : (getStore st s).hasFaiss
    · simp [hf, create_embeddings, h]
    · simp [hf]
  · by_cases hf : (getStore st s).hasFaiss
    · by_cases he : o.embedOk <;> simp [hf, he, create_embeddings, h]
    · simp [hf]
  · by_cases hf : (getStore st s).hasFaiss
    · by_cases he : o.embedOk
      · by_cases hl : o.loadOk
        · simp [hf, he, hl, create_embeddings, h]
        · simp [hf, he, hl, create_embeddings]
      · simp [hf, he, create_embeddings]
    · simp [hf]

/-- C8 witness: with `index.faiss` absent, the loader's result is the
builder's result. -/
theorem c8_witness :
    load_vectorstore c8Disk oracleOk "Mathematics" =
      build_vectorstore c8Disk oracleOk "Mathematics" :=
  c8_load_falls_back_to_build c8Disk oracleOk "Mathematics" (Or.inl rfl)

/-! ## Claim C6 -/

/-- C6: an exception during embedding construction, index construction or
persistence aborts the build with the failure result `(None, None)` and
leaves the disk untouched; and whenever the build changes the subject's
metadata record, persistence had succeeded first — both index files are
present in the final state and the build returned a vectorstore — so a
failed build never leaves metadata that a later load would mistake for a
valid cache. -/
theorem c6_build_abort_and_metadata_order (st : DiskState) (o : Oracle) (s : String) :
    (o.embedOk = false ∨ o.fromDocsOk = false ∨ o.saveOk = false →
      build_vectorstore st o s = ((none, none), st))
    ∧ ((getStore (build_vectorstore st o s).2 s).metadataFile ≠
        (getStore st s).metadataFile →
        o.embedOk = true ∧ o.fromDocsOk = true ∧ o.saveOk = true ∧
        (getStore (build_vectorstore st o s).2 s).hasFaiss = true ∧
        (getStore (build_vectorstore st o s).2 s).hasPkl = true ∧
        (build_vectorstore st o s).1.1.isSome = true) := by
  cases hdir : findDir st.curriculumRoot s with
  | none =>
    have hb : build_vectorstore st o s = ((none, none), st) := by
      unfold build_vectorstore
      rw [hdir]
    rw [hb]
    exact ⟨fun _ => rfl, fun hm => absurd rfl hm⟩
  | some dir =>
    by_cases hdocs : (loadAllPdfs o s
        (sortByName (dir.files.filter (fun f => qualifiesPdf f.name)))).isEmpty
    · have hb : build_vectorstore st o s = ((none, none), st) := by
        unfold build_vectorstore
        rw [hdir]
        simp [hdocs]
      rw [hb]
      exact ⟨fun _ => rfl, fun hm => absurd rfl hm⟩
    · by_cases hembed : o.embedOk
      · by_cases hfrom : o.fromDocsOk
        · by_cases hsave : o.saveOk
          · have hb : build_vectorstore st o s =
                ((some (.built s), some .hf),
                 save_metadata
                   (setStore st s (fun vd => { vd with hasFaiss := true, hasPkl := true }))
                   s (hexEncode (get_folder_hash dir.files))
                   (loadAllPdfs o s
                     (sortByName (dir.files.filter (fun f => qualifiesPdf f.name)))).length
                   (o.split (loadAllPdfs o s
                     (sortByName (dir.files.filter (fun f => qualifiesPdf f.name))))).length
                   o.now) := by
              unfold build_vectorstore
              rw [hdir]
              simp [hdocs, create_embeddings, hembed, hfrom, hsave]
            rw [hb]
            constructor
            · intro hfail
              rcases hfail with hh | hh | hh <;> simp_all
            · intro _
              refine ⟨hembed, hfrom, hsave, ?_, ?_, rfl⟩
              · unfold save_metadata
                rw [getStore_setStore_self, getStore_setStore_self]
              · unfold save_metadata
                rw [getStore_setStore_self, getStore_setStore_self]
          · have hb : build_vectorstore st o s = ((none, none), st) := by
              unfold build_vectorstore
              rw [hdir]
              simp [hdocs, create_embeddings, hembed, hfrom, hsave]
            rw [hb]
            exact ⟨fun _ => rfl, fun hm => absurd rfl hm⟩
        · have hb : build_vectorstore st o s = ((none, none), st) := by
            unfold build_vectorstore
            rw [hdir]
            simp [hdocs, create_embeddings, hembed, hfrom]
          rw [hb]
          exact ⟨fun _ => rfl, fun hm => absurd rfl hm⟩
      · have hb : build_vectorstore st o s = ((none, none), st) := by
          unfold build_vectorstore
          rw [hdir]
          simp [hdocs, create_embeddings, hembed]
        rw [hb]
        exact ⟨fun _ => rfl, fun hm => absurd rfl hm⟩

/-- C6 witness: a build whose persistence step raises returns the failure
result and leaves the disk (hence the metadata record) unchanged. -/
theorem c6_witness :
    build_vectorstore c6Disk c6OracleFail "Mathematics" = ((none, none), c6Disk) :=
  (c6_build_abort_and_metadata_order c6Disk c6OracleFail "Mathematics").1
    (Or.inr (Or.inr rfl))

/-! ## Claim C5 -/

/-- A stored value other than the current hash string fails the comparison
(`metadata.get("file_hash") != current_hash` is true). -/
theorem storedEqHash_eq_false {v : Option Json} {h : List Char}
    (hne : v ≠ some (.str h)) : storedEqHash v h = false := by
  cases v with
  | none => rfl
  | some j =>
    cases j with
    | null => rfl
    | bool b => rfl
    | num n => rfl
    | arr xs => rfl
    | obj kvs => rfl
    | str s =>
      have hsne : s ≠ h := fun he => hne (by rw [he])
      simpa [storedEqHash] using beq_eq_false_iff_ne.mpr hsne

/-- C5: the cache-gate decision of `initialize_vectorstore` with
`force_rebuild=False` on a subject not in the in-memory cache: (a) if
either persisted index file is absent it invokes the builder; (b) if both
are present and the stored metadata fingerprint equals the current folder
fingerprint, it loads the persisted index (yielding the loaded store with
no builder involvement, given the load itself succeeds); (c) if the stored
fingerprint differs from the current one it rebuilds. -/
theorem c5_cache_gate_decision (ps : ProcState) (o : Oracle) (s : String)
    (hmiss : ps.gvs.lookup s = none) :
    ((getStore ps.disk s).hasFaiss = false ∨ (getStore ps.disk s).hasPkl = false →
      initialize_vectorstore ps o s false =
        .ok (liftDisk ps (build_vectorstore ps.disk o s)))
    ∧ (∀ m, get_metadata (getStore ps.disk s).metadataFile = .ok m →
        (getStore ps.disk s).hasFaiss = true → (getStore ps.disk s).hasPkl = true →
        pyGet m "file_hash".toList =
          .ok (some (.str (hexEncode (get_folder_hash (curriculumFiles ps.disk s))))) →
        o.embedOk = true → o.loadOk = true →
        initialize_vectorstore ps o s false = .ok ((some (.loaded s), some .hf), ps))
    ∧ (∀ m v, get_metadata (getStore ps.disk s).metadataFile = .ok m →
        (getStore ps.disk s).hasFaiss = true → (getStore ps.disk s).hasPkl = true →
        pyGet m "file_hash".toList = .ok v →
        v ≠ some (.str (hexEncode (get_folder_hash (curriculumFiles ps.disk s)))) →
        initialize_vectorstore ps o s false =
          .ok (liftDisk ps (build_vectorstore ps.disk o s))) := by
  refine ⟨?_, ?_, ?_⟩
  · intro hfp
    have hsrb : should_rebuild_vectorstore ps.disk s = .ok true := by
      rcases hfp with hf | hp
      · simp [should_rebuild_vectorstore, hf]
      · simp [should_rebuild_vectorstore, hp]
    simp [initialize_vectorstore, hmiss, hsrb]
  · intro m hm hf hp hpg hembed hload
    have hpgl : pyGet m (['f', 'i', 'l', 'e', '_', 'h', 'a', 's', 'h'] : List Char) =
        .ok (some (.str (hexEncode (get_folder_hash (curriculumFiles ps.disk s))))) := hpg
    have hsrb : should_rebuild_vectorstore ps.disk s = .ok false := by
      simp [should_rebuild_vectorstore, hf, hp, hm, hpgl, storedEqHash]
    have hres : initialize_vectorstore ps o s false =
        .ok (liftDisk ps (load_vectorstore ps.disk o s)) := by
      simp [initialize_vectorstore, hmiss, hsrb]
    rw [hres]
    have hl : load_vectorstore ps.disk o s = ((some (.loaded s), some .hf), ps.disk) := by
      simp [load_vectorstore, hf, create_embeddings, hembed, hload, hm]
    rw [hl]
    rfl
  · intro m v hm hf hp hpg hne
    have hse : storedEqHash v
        (hexEncode (get_folder_hash (curriculumFiles ps.disk s))) = false :=
      storedEqHash_eq_false hne
    have hpgl : pyGet m (['f', 'i', 'l', 'e', '_', 'h', 'a', 's', 'h'] : List Char) =
        .ok v := hpg
    have hsrb : should_rebuild_vectorstore ps.disk s = .ok true := by
      simp [should_rebuild_vectorstore, hf, hp, hm, hpgl, hse]
    simp [initialize_vectorstore, hmiss, hsrb]

/-- C5 witness: the three gate decisions on concrete states — index files
absent (build), fresh fingerprint (load), stale fingerprint (rebuild). -/
theorem c5_witness :
    initialize_vectorstore c5StateA oracleOk "Mathematics" false =
      .ok (liftDisk c5StateA (build_vectorstore c5StateA.disk oracleOk "Mathematics"))
    ∧ initialize_vectorstore c5StateB oracleOk "Empty" false =
        .ok ((some (.loaded "Empty"), some .hf), c5StateB)
    ∧ initialize_vectorstore c5StateC oracleOk "Empty" false =
        .ok (liftDisk c5StateC (build_vectorstore c5StateC.disk oracleOk "Empty")) := by
  refine ⟨?_, ?_, ?_⟩
  · exact (c5_cache_gate_decision c5StateA oracleOk "Mathematics" rfl).1 (Or.inl rfl)
  · exact (c5_cache_gate_decision c5StateB oracleOk "Empty" rfl).2.1 c5RecordMatch
      rfl rfl rfl rfl rfl rfl
  · refine (c5_cache_gate_decision c5StateC oracleOk "Empty" rfl).2.2 c5RecordMismatch
      (some (.str ['x'])) rfl rfl rfl rfl ?_
    intro hcontr
    have h1 := Option.some.inj hcontr
    have h2 : (['x'] : List Char) =
        hexEncode (get_folder_hash (curriculumFiles c5StateC.disk "Empty")) := by
      injection h1
    exact absurd h2 (by decide)
